import Mathlib

/-! Shallow embedding of the bid-system repository: the SQL tables of
database.py (members, products, winners), the Redis structures used by
routers/bidding.py (current-product cache, per-product sorted-set ranking,
per-product details hash, per-user weight hash), and the operations of
routers/bidding.py, routers/admin.py and routers/users.py.

Modelling conventions: Python floats are modelled as rationals; SQL NULL in
a numeric column is conflated with 0 (both are falsy for the `x or default`
expressions in the code); Redis key expiry (TTL) is not modelled — an
expired or absent cache entry is represented by `none` / an absent key.
Asynchronous handlers are modelled as sequential state transformers. -/

/-- Association-list lookup, first match wins (Redis hash field lookup and
SQL primary-key SELECT). -/
def alookup {α β : Type} [DecidableEq α] (k : α) : List (α × β) → Option β
  | [] => none
  | (k0, v) :: rest => if k0 = k then some v else alookup k rest

/-- Association-list set: replace the value at the first entry with this key,
else append. Models Redis HSET and the member update of ZADD on a structure
whose keys are unique. -/
def aset {α β : Type} [DecidableEq α] (k : α) (v : β) : List (α × β) → List (α × β)
  | [] => [(k, v)]
  | (k0, v0) :: rest => if k0 = k then (k, v) :: rest else (k0, v0) :: aset k v rest

/-- Row of the members table of database.py: weight and wins; the user_id
column is the association key. -/
structure Mem where
  weight : Int
  wins : Int
deriving DecidableEq

/-- Row of the products table of database.py. -/
structure Product where
  product_id : Nat
  name : String
  base_price : Rat
  total_quantity : Int
  duration_minutes : Int
  alpha : Rat
  beta : Rat
  gamma : Rat
  start_time : Int
  period : Int
  settled : Bool
deriving DecidableEq

/-- Row of the winners table of database.py. -/
structure Award where
  product_id : Nat
  user_id : String
  win_price : Int
  win_score : Rat
  settled_time : Int
deriving DecidableEq

/-- Product snapshot dict as consumed by the bidding code: exactly the fields
of the cache_payload built in get_current_product of bidding.py (these are
also the only fields of a raw row that the downstream code reads). -/
structure Snapshot where
  product_id : Nat
  name : String
  start_time : Int
  period : Int
  total_quantity : Int
  settled : Bool
  base_price : Rat
  alpha : Rat
  beta : Rat
  gamma : Rat
deriving DecidableEq

/-- Redis details-hash entry written by the bid endpoint: price, time and
score of the most recent bid of a user. -/
structure Detail where
  price : Int
  time : Int
  score : Rat
deriving DecidableEq

/-- Whole-system state: the three SQL tables plus the Redis structures.
rankings and details are keyed by product id (the Redis key pattern
bid:pid:ranking and bid:pid:details); userCache models the user:uid hashes;
cache models the system:current_product key. -/
structure SysState where
  members : List (String × Mem)
  products : List Product
  winners : List Award
  cache : Option Snapshot
  rankings : List (Nat × List (String × Rat))
  details : List (Nat × List (String × Detail))
  userCache : List (String × Int)
deriving DecidableEq

/-- Ranking sorted set of a product id (empty when the key is absent). -/
def rankingOf (s : SysState) (pid : Nat) : List (String × Rat) :=
  (alookup pid s.rankings).getD []

/-- Details hash of a product id (empty when the key is absent). -/
def detailsOf (s : SysState) (pid : Nat) : List (String × Detail) :=
  (alookup pid s.details).getD []

/-- SELECT from products WHERE product_id = pid (primary key, first match). -/
def findProduct (pid : Nat) : List Product → Option Product
  | [] => none
  | p :: rest => if p.product_id = pid then some p else findProduct pid rest

/-- SELECT from products ORDER BY product_id DESC LIMIT 1. -/
def latestProduct : List Product → Option Product
  | [] => none
  | p :: rest =>
    match latestProduct rest with
    | none => some p
    | some q => some (if q.product_id ≤ p.product_id then p else q)

/-- UPDATE products SET settled = true WHERE product_id = pid. -/
def setSettled (pid : Nat) (l : List Product) : List Product :=
  l.map fun p => if p.product_id = pid then { p with settled := true } else p

/-- calc_score of bidding.py: alpha * P + beta / (T + 1) + gamma * W. -/
def calc_score (P T W alpha beta gamma : Rat) : Rat :=
  alpha * P + (beta / (T + 1)) + gamma * W

/-- Python `x or d` on a numeric column: d when x is falsy (0, and NULL is
conflated with 0), else x. -/
def orDefault (x d : Rat) : Rat := if x = 0 then d else x

/-- Python `x or d` on an integer column. -/
def orDefaultInt (x d : Int) : Int := if x = 0 then d else x

/-- Snapshot view of a raw products row: the value get_current_product
returns on a cache miss is the raw row itself (product_data), so its shared
fields carry the raw column contents with no defaulting. -/
def rowSnapshot (p : Product) : Snapshot :=
  { product_id := p.product_id
    name := p.name
    start_time := p.start_time
    period := p.period
    total_quantity := p.total_quantity
    settled := p.settled
    base_price := p.base_price
    alpha := p.alpha
    beta := p.beta
    gamma := p.gamma }

/-- cache_payload built by get_current_product on a miss and written to
Redis: falsy columns are replaced by defaults (start_time by the current
time, alpha by 3, beta by 5, gamma by 3; period and total_quantity by 0,
which is an identity under the NULL-as-0 convention). -/
def cachePayload (now : Int) (p : Product) : Snapshot :=
  { product_id := p.product_id
    name := p.name
    start_time := orDefaultInt p.start_time now
    period := p.period
    total_quantity := p.total_quantity
    settled := p.settled
    base_price := p.base_price
    alpha := orDefault p.alpha 3
    beta := orDefault p.beta 5
    gamma := orDefault p.gamma 3 }

/-- get_current_product of bidding.py: return the cached snapshot when the
Redis key holds one; else read the highest-id product row from SQL, write the
defaulted cache_payload to Redis, and return the raw row. -/
def get_current_product (s : SysState) (now : Int) : Option Snapshot × SysState :=
  match s.cache with
  | some c => (some c, s)
  | none =>
    match latestProduct s.products with
    | some row => (some (rowSnapshot row), { s with cache := some (cachePayload now row) })
    | none => (none, s)

/-- get_user_weight of bidding.py: Redis hash first; on a miss read the
members row and backfill the Redis hash; for an unknown user return the
fallback weight 1 without caching it. -/
def get_user_weight (s : SysState) (u : String) : Int × SysState :=
  match alookup u s.userCache with
  | some w => (w, s)
  | none =>
    match alookup u s.members with
    | some m => (m.weight, { s with userCache := aset u m.weight s.userCache })
    | none => (1, s)

/-- Descending-by-score order of the ranking sorted set as observed through
ZREVRANGE. Ties keep list order; no claim in scope depends on tie order. -/
def sortDesc (l : List (String × Rat)) : List (String × Rat) :=
  List.insertionSort (fun a b => b.2 ≤ a.2) l

/-- ZREVRANGE key start stop WITHSCORES: inclusive indices into the
descending order; a negative index counts from the end; out-of-range indices
are clamped; an inverted range yields the empty list. -/
def zrevrange (l : List (String × Rat)) (start stop : Int) : List (String × Rat) :=
  let sorted := sortDesc l
  let n : Int := sorted.length
  let a := if start < 0 then max (start + n) 0 else start
  let b := if stop < 0 then stop + n else min stop (n - 1)
  if b < a then [] else (sorted.drop a.toNat).take (b - a + 1).toNat

/-- Top-n query on a ranking: ZREVRANGE 0 (n - 1), exactly as issued by
bid_list and by the winner selection of settle_product_logic (with n the
total_quantity of the product). -/
def topRanked (l : List (String × Rat)) (n : Int) : List (String × Rat) :=
  zrevrange l 0 (n - 1)

/-- Outcome of the bid endpoint. -/
inductive BidResult
  | noProduct
  | alreadySettled
  | ok (price : Int) (score : Rat) (timestamp : Int)
deriving DecidableEq

/-- Replace the ranking sorted set of a product id. -/
def setRanking (s : SysState) (pid : Nat) (l : List (String × Rat)) : SysState :=
  { s with rankings := aset pid l s.rankings }

/-- Replace the details hash of a product id. -/
def setDetails (s : SysState) (pid : Nat) (l : List (String × Detail)) : SysState :=
  { s with details := aset pid l s.details }

/-- bid endpoint of bidding.py (burn_cpu is omitted: a pure CPU loop with no
state effect). Reads the product snapshot and the user weight, computes the
score with the elapsed time clamped to at least 1, then unconditionally
ZADDs the score and HSETs the detail record for the user. -/
def bid (s : SysState) (now : Int) (user : String) (price : Int) : BidResult × SysState :=
  match get_current_product s now with
  | (none, s1) => (.noProduct, s1)
  | (some p, s1) =>
    if p.settled then (.alreadySettled, s1)
    else
      let ws := get_user_weight s1 user
      let elapsed : Int := max (now - p.start_time) 1
      let sc := calc_score (price : Rat) (elapsed : Rat) (ws.1 : Rat) p.alpha p.beta p.gamma
      let pid := p.product_id
      let s3 := setRanking ws.2 pid (aset user sc (rankingOf ws.2 pid))
      let s4 := setDetails s3 pid (aset user ⟨price, now, sc⟩ (detailsOf s3 pid))
      (.ok price sc now, s4)

/-- Loop body of section C of settle_product_logic for one winner entry:
read the winning price from the details hash; when the user has a members
row, set wins and weight to wins + 1 there and mirror the new weight into
the Redis user hash; then insert the winners row (the insert is outside the
membership check in the code, so it happens for unregistered users too). -/
def settleWinner (pid : Nat) (now : Int) (s : SysState) (e : String × Rat) : SysState :=
  let price := match alookup e.1 (detailsOf s pid) with
    | some d => d.price
    | none => 0
  let s1 := match alookup e.1 s.members with
    | some m =>
      { s with members := aset e.1 ⟨m.wins + 1, m.wins + 1⟩ s.members
               userCache := aset e.1 (m.wins + 1) s.userCache }
    | none => s
  { s1 with winners := s1.winners ++ [⟨pid, e.1, price, e.2, now⟩] }

/-- Winner loop of settle_product_logic over the frozen top list. -/
def settleWinners (pid : Nat) (now : Int) : SysState → List (String × Rat) → SysState
  | s, [] => s
  | s, e :: rest => settleWinners pid now (settleWinner pid now s e) rest

/-- settle_product_logic of bidding.py: under the row lock, re-check the
settled flag (no-op when the row is absent or already settled); read the top
total_quantity winners from the ranking; run the winner loop; set settled =
true in SQL; finally, when the Redis product cache holds this product id,
rewrite its settled flag to true (the Redis EXPIRE calls on the ranking and
details keys only shorten the TTL, which is not modelled). -/
def settle_product_logic (s : SysState) (pid : Nat) (total_quantity : Int) (now : Int) :
    SysState :=
  match findProduct pid s.products with
  | none => s
  | some prod =>
    if prod.settled then s
    else
      let top := topRanked (rankingOf s pid) total_quantity
      let s1 := settleWinners pid now s top
      let s2 := { s1 with products := setSettled pid s1.products }
      match s2.cache with
      | some c =>
        if c.product_id = pid then { s2 with cache := some { c with settled := true } }
        else s2
      | none => s2

/-- Outcome of the register endpoint of users.py. -/
inductive RegResult
  | fail
  | ok
deriving DecidableEq

/-- register endpoint of users.py: reject when the user exists, else insert
the members row with weight 0 and wins 0. -/
def register (s : SysState) (username : String) : RegResult × SysState :=
  match alookup username s.members with
  | some _ => (.fail, s)
  | none => (.ok, { s with members := s.members ++ [(username, ⟨0, 0⟩)] })

/-- Request body of the set_product endpoint of admin.py. -/
structure ProductConfig where
  name : String
  base_price : Rat
  total_quantity : Int
  duration_minutes : Int

/-- set_product endpoint of admin.py: an upsert of the row with
product_id = 1. On update, the columns in values overwrite the old contents
(name, floor, capacity, duration, timing) and settled is reset to false,
while alpha, beta, gamma keep their old contents; on insert the coefficient
columns take the database.py column defaults 1, 0, 0. The delete on the
bids table is dropped from the model: bidding.py keeps live bids only in
Redis and database.py declares no bids table. The Redis product cache is
not touched. -/
def set_product (s : SysState) (cfg : ProductConfig) (now : Int) : SysState :=
  match findProduct 1 s.products with
  | some _ =>
    { s with products := s.products.map fun p =>
        if p.product_id = 1 then
          { p with name := cfg.name
                   base_price := cfg.base_price
                   total_quantity := cfg.total_quantity
                   duration_minutes := cfg.duration_minutes
                   start_time := now
                   period := cfg.duration_minutes * 60 * 1000
                   settled := false }
        else p }
  | none =>
    { s with products := s.products ++
        [{ product_id := 1
           name := cfg.name
           base_price := cfg.base_price
           total_quantity := cfg.total_quantity
           duration_minutes := cfg.duration_minutes
           alpha := 1
           beta := 0
           gamma := 0
           start_time := now
           period := cfg.duration_minutes * 60 * 1000
           settled := false }] }

/-- Outcome of the set_score endpoint of admin.py. -/
inductive SetScoreResult
  | fail
  | ok
deriving DecidableEq

/-- set_score endpoint of admin.py: when product 1 exists, update alpha,
beta, gamma in SQL and report ok; else report failure. The Redis product
cache is not touched by this endpoint. -/
def set_score (s : SysState) (A B C : Rat) : SetScoreResult × SysState :=
  match findProduct 1 s.products with
  | some _ =>
    (.ok, { s with products := s.products.map fun p =>
        if p.product_id = 1 then { p with alpha := A, beta := B, gamma := C } else p })
  | none => (.fail, s)

/-- Members row of a user (weight and wins), as read by the theorems. -/
def memOf (s : SysState) (u : String) : Option Mem := alookup u s.members

/-- Number of winners rows for a given product id and user. -/
def awardCount (s : SysState) (pid : Nat) (u : String) : Nat :=
  (s.winners.filter fun a => a.product_id == pid && a.user_id == u).length

/-- Product snapshot used by the concrete scenarios: product 1, capacity 2,
unsettled, alpha 1, beta 0, gamma 0, start_time 0. -/
def snapEx : Snapshot :=
  { product_id := 1, name := "item", start_time := 0, period := 0
    total_quantity := 2, settled := false, base_price := 0
    alpha := 1, beta := 0, gamma := 0 }

/-- Initial state for the re-bid scenario: empty tables, warm product cache. -/
def stateEx : SysState :=
  { members := [], products := [], winners := [], cache := some snapEx
    rankings := [], details := [], userCache := [] }

/-- Cached snapshot for the A, B, C scenario: product 1, capacity 2,
alpha 1, beta 0, gamma 10, start_time 0, unsettled. -/
def snapABC : Snapshot :=
  { product_id := 1, name := "item", start_time := 0, period := 0
    total_quantity := 2, settled := false, base_price := 0
    alpha := 1, beta := 0, gamma := 10 }

/-- Products row matching snapABC. -/
def prodABC : Product :=
  { product_id := 1, name := "item", base_price := 0, total_quantity := 2
    duration_minutes := 0, alpha := 1, beta := 0, gamma := 10
    start_time := 0, period := 0, settled := false }

/-- Start state of the scenario: A and C have weight 0, B has weight 5. -/
def stateABC0 : SysState :=
  { members := [("A", ⟨0, 0⟩), ("B", ⟨5, 5⟩), ("C", ⟨0, 0⟩)]
    products := [prodABC], winners := [], cache := some snapABC
    rankings := [], details := [], userCache := [] }

/-- State after A bids 100, B bids 90 and C bids 80, all at time 0. -/
def stateABC : SysState :=
  (bid (bid (bid stateABC0 0 "A" 100).2 0 "B" 90).2 0 "C" 80).2

/-- Snapshot for the clamp check: beta 6, alpha 1, gamma 0, start_time 5. -/
def snapClamp : Snapshot :=
  { product_id := 1, name := "item", start_time := 5, period := 0
    total_quantity := 1, settled := false, base_price := 0
    alpha := 1, beta := 6, gamma := 0 }

/-- State for the clamp check. -/
def stateClamp : SysState :=
  { members := [("E", ⟨0, 0⟩)], products := [], winners := [], cache := some snapClamp
    rankings := [], details := [], userCache := [] }

/-- Products row with settled already true, used by the C9 scenario. -/
def prodSettled : Product :=
  { product_id := 1, name := "item", base_price := 0, total_quantity := 1
    duration_minutes := 0, alpha := 1, beta := 0, gamma := 0
    start_time := 0, period := 0, settled := true }

/-- State whose store holds a settled product and whose metadata cache is
empty, so the settled flag is observed through a cache miss. -/
def stateSettledMiss : SysState :=
  { members := [], products := [prodSettled], winners := [], cache := none
    rankings := [], details := [], userCache := [] }

/-- Cached snapshot with settled = true for the C9 witness. -/
def snapSettled : Snapshot :=
  { product_id := 1, name := "item", start_time := 0, period := 0
    total_quantity := 1, settled := true, base_price := 0
    alpha := 1, beta := 0, gamma := 0 }

/-- State observing the settled product through a warm cache. -/
def stateSettledHit : SysState :=
  { members := [], products := [prodSettled], winners := [], cache := some snapSettled
    rankings := [], details := [], userCache := [] }

/-- Existing settled auction row used by the C7 scenario. -/
def prodOld : Product :=
  { product_id := 1, name := "old", base_price := 10, total_quantity := 3
    duration_minutes := 1, alpha := 2, beta := 3, gamma := 4
    start_time := 100, period := 60000, settled := true }

/-- State holding only the old auction row. -/
def stateProdOld : SysState :=
  { members := [], products := [prodOld], winners := [], cache := none
    rankings := [], details := [], userCache := [] }

/-- Admin request used by the C7 scenario. -/
def cfgNew : ProductConfig :=
  { name := "new", base_price := 20, total_quantity := 5, duration_minutes := 2 }

/-- State for the stale-coefficient scenario: product 1 with alpha 1 in SQL
and a warm cache holding the matching snapshot. -/
def stateCoef : SysState :=
  { members := [], products := [prodABC], winners := [], cache := some (rowSnapshot prodABC)
    rankings := [], details := [], userCache := [] }

/-- State with an unsettled product in SQL and an empty metadata cache. -/
def stateMissOpen : SysState :=
  { members := [], products := [prodABC], winners := [], cache := none
    rankings := [], details := [], userCache := [] }

/-- Stored auction configuration with a zero alpha coefficient. -/
def prodZeroAlpha : Product :=
  { product_id := 1, name := "item", base_price := 10, total_quantity := 1
    duration_minutes := 1, alpha := 0, beta := 7, gamma := 2
    start_time := 5, period := 9, settled := false }

/-- State holding the zero-alpha row with an empty metadata cache. -/
def stateZeroAlpha : SysState :=
  { members := [], products := [prodZeroAlpha], winners := [], cache := none
    rankings := [], details := [], userCache := [] }

/-- Winners row written for one winner entry, with the price taken from the
frozen details hash. -/
def mkAward (pid : Nat) (now : Int) (dl : List (String × Detail)) (e : String × Rat) :
    Award :=
  { product_id := pid
    user_id := e.1
    win_price := match alookup e.1 dl with
      | some d => d.price
      | none => 0
    win_score := e.2
    settled_time := now }

/-- Wins-and-weight update applied to a members row on a win: both columns
are set to wins + 1. -/
def bumpMem (m : Mem) : Mem := { weight := m.wins + 1, wins := m.wins + 1 }

/-- Literal-score state used by the settlement witness: two registered
bidders with a frozen two-entry ranking for product 1. -/
def stateSettleW : SysState :=
  { members := [("A", ⟨0, 0⟩), ("B", ⟨5, 5⟩)]
    products := [prodABC], winners := [], cache := none
    rankings := [(1, [("A", 100), ("B", 140)])]
    details := [(1, [("A", ⟨100, 0, 100⟩), ("B", ⟨90, 0, 140⟩)])]
    userCache := [] }

/-- State whose ranking holds a single bidder X who never registered. -/
def stateUnreg : SysState :=
  { members := [], products := [prodABC], winners := [], cache := none
    rankings := [(1, [("X", 5)])], details := [(1, [])], userCache := [] }

/-- Mixed state for the C4 witness: a registered winner R (two prior wins)
and an unregistered winner X share the frozen top-2 ranking. -/
def stateMixed : SysState :=
  { members := [("R", ⟨2, 2⟩)]
    products := [prodABC], winners := [], cache := none
    rankings := [(1, [("R", 100), ("X", 50)])]
    details := [(1, [("R", ⟨100, 0, 100⟩)])], userCache := [] }

/-! Generic lemmas about the association-list primitives. -/

theorem alookup_aset_self {α β : Type} [DecidableEq α] (k : α) (v : β)
    (l : List (α × β)) : alookup k (aset k v l) = some v := by
  induction l with
  | nil => simp [aset, alookup]
  | cons hd tl ih =>
    by_cases h : hd.1 = k
    · simp [aset, alookup, h]
    · simpa [aset, alookup, h] using ih

theorem alookup_aset_ne {α β : Type} [DecidableEq α] {k1 k : α} (v : β)
    (l : List (α × β)) (h : k1 ≠ k) : alookup k1 (aset k v l) = alookup k1 l := by
  have h2 : ¬ k = k1 := fun e => h e.symm
  induction l with
  | nil => simp [aset, alookup, h2]
  | cons hd tl ih =>
    obtain ⟨a, b⟩ := hd
    by_cases hh : a = k
    · subst hh
      simp [aset, alookup, h2]
    · by_cases h1 : a = k1 <;> simp [aset, alookup, hh, h1, h, ih]

/-! Claim C1. The specification says a re-bid replaces the ranking entry only
when the new score is strictly greater. The code calls ZADD without the GT
flag, which overwrites unconditionally, so a lower re-bid downgrades the
entry and refreshes the stored timestamp. -/

/-- C1 counterexample: bidder D bids price 50 (score 50) and then price 30
(score 30) in the same auction; the Ranking Store entry for D afterwards is
30, not the maximum 50 — the second bid downgraded the entry. -/
theorem bid_rebid_downgrades :
    alookup "D" (rankingOf (bid (bid stateEx 0 "D" 50).2 0 "D" 30).2 1) = some 30 ∧
      ((30 : Rat) < 50) := by
  constructor
  · norm_num [bid, get_current_product, get_user_weight, calc_score, rankingOf,
      setRanking, setDetails, aset, alookup, stateEx, snapEx]
  · norm_num

/-- C1 (amended): after each accepted submission the Ranking Store entry for
the bidder equals the score of the most recent bid (ZADD without the GT flag
overwrites unconditionally, so a lower re-bid does downgrade the entry), and
the recorded detail carries the price and timestamp of that most recent bid. -/
theorem bid_entry_is_latest (s : SysState) (now : Int) (user : String) (price : Int)
    (p : Snapshot) (hp : (get_current_product s now).1 = some p)
    (hs : p.settled = false) :
    ∃ sc : Rat,
      (bid s now user price).1 = BidResult.ok price sc now ∧
      alookup user (rankingOf (bid s now user price).2 p.product_id) = some sc ∧
      alookup user (detailsOf (bid s now user price).2 p.product_id) =
        some ⟨price, now, sc⟩ := by
  rcases hg : get_current_product s now with ⟨po, s1⟩
  rw [hg] at hp
  simp only at hp
  subst hp
  unfold bid
  rw [hg]
  simp only [hs, Bool.false_eq_true, if_false]
  refine ⟨_, rfl, ?_, ?_⟩
  · simp [rankingOf, setRanking, setDetails, alookup_aset_self]
  · simp [detailsOf, setDetails, alookup_aset_self]

/-- C1 witness: concrete accepted bid, hypotheses discharged by rfl. -/
theorem bid_entry_is_latest_witness :
    ∃ sc : Rat,
      (bid stateEx 0 "D" 50).1 = BidResult.ok 50 sc 0 ∧
      alookup "D" (rankingOf (bid stateEx 0 "D" 50).2 1) = some sc ∧
      alookup "D" (detailsOf (bid stateEx 0 "D" 50).2 1) = some ⟨50, 0, sc⟩ :=
  bid_entry_is_latest stateEx 0 "D" 50 snapEx rfl rfl

/-! Claim C3: the score formula, the elapsed-time clamp, and the concrete
capacity-2 scenario with bidders A, B, C. -/

/-- Literal value of stateABC, established once and reused. -/
theorem stateABC_eval :
    stateABC =
      { members := [("A", ⟨0, 0⟩), ("B", ⟨5, 5⟩), ("C", ⟨0, 0⟩)]
        products := [prodABC], winners := [], cache := some snapABC
        rankings := [(1, [("A", 100), ("B", 140), ("C", 80)])]
        details := [(1, [("A", ⟨100, 0, 100⟩), ("B", ⟨90, 0, 140⟩), ("C", ⟨80, 0, 80⟩)])]
        userCache := [("A", 0), ("B", 5), ("C", 0)] } := by
  simp [stateABC, stateABC0, snapABC, bid, get_current_product, get_user_weight,
    rankingOf, detailsOf, setRanking, setDetails, aset, alookup]
  norm_num [calc_score]

/-- C3: calc_score is exactly alpha * P + beta / (T + 1) + gamma * W; the bid
path clamps elapsed time to at least 1 before use (a bid at the very start
time scores beta / 2, not beta / 1); and in the concrete scenario with
capacity 2, A (price 100, weight 0) scores 100, B (price 90, weight 5)
scores 140, C (price 80, weight 0) scores 80, the top-2 query returns
[B, A] in that order, settlement awards exactly B then A, and C wins
nothing. -/
theorem calc_score_spec :
    (∀ P T W alpha beta gamma : Rat,
        calc_score P T W alpha beta gamma = alpha * P + beta / (T + 1) + gamma * W) ∧
    alookup "E" (rankingOf (bid stateClamp 5 "E" 0).2 1) = some 3 ∧
    topRanked (rankingOf stateABC 1) 2 = [("B", 140), ("A", 100)] ∧
    (settle_product_logic stateABC 1 2 0).winners.map Award.user_id = ["B", "A"] ∧
    "C" ∉ (settle_product_logic stateABC 1 2 0).winners.map Award.user_id := by
  refine ⟨fun P T W alpha beta gamma => rfl, ?_, ?_, ?_, ?_⟩
  · simp [stateClamp, snapClamp, bid, get_current_product, get_user_weight,
      rankingOf, setRanking, setDetails, aset, alookup]
    norm_num [calc_score]
  · rw [stateABC_eval]; decide
  · rw [stateABC_eval]; decide
  · rw [stateABC_eval]; decide

/-- Appending entries is invisible to a lookup that already fails on the
left part. -/
theorem alookup_append_left_none {α β : Type} [DecidableEq α] {k : α}
    {l1 : List (α × β)} (l2 : List (α × β)) (h : alookup k l1 = none) :
    alookup k (l1 ++ l2) = alookup k l2 := by
  induction l1 with
  | nil => simp
  | cons hd tl ih =>
    obtain ⟨a, b⟩ := hd
    by_cases hh : a = k
    · simp [alookup, hh] at h
    · simp only [List.cons_append, alookup, if_neg hh] at h ⊢
      exact ih h

/-! Claim C10: duplicate registration fails without touching the members
table; a fresh registration stores weight 0 and wins 0; the weight lookup
for a fresh bidder returns 0, while an identity known to neither the Redis
user cache nor the members table gets the fallback weight 1. -/

/-- C10: register rejects an existing identity and leaves the state intact;
a successful registration creates the member with weight 0 and wins 0, so a
subsequent weight lookup returns 0; an identity in neither the cache nor the
store is scored with the fallback weight 1, and 0 is strictly less than 1. -/
theorem register_spec (s : SysState) (u : String) :
    ((alookup u s.members).isSome → register s u = (RegResult.fail, s)) ∧
    (alookup u s.members = none → alookup u s.userCache = none →
      (register s u).1 = RegResult.ok ∧
      alookup u ((register s u).2).members = some ⟨0, 0⟩ ∧
      (get_user_weight ((register s u).2) u).1 = 0) ∧
    (alookup u s.members = none → alookup u s.userCache = none →
      (get_user_weight s u).1 = 1 ∧ (0 : Int) < 1) := by
  refine ⟨?_, ?_, ?_⟩
  · intro h
    rcases hm : alookup u s.members with _ | m
    · rw [hm] at h; simp at h
    · simp [register, hm]
  · intro hm hc
    have hmem : alookup u (s.members ++ [(u, (⟨0, 0⟩ : Mem))]) = some ⟨0, 0⟩ := by
      rw [alookup_append_left_none _ hm]
      simp [alookup]
    refine ⟨by simp [register, hm], by simp [register, hm, hmem], ?_⟩
    simp [register, hm, get_user_weight, hc, hmem]
  · intro hm hc
    exact ⟨by simp [get_user_weight, hm, hc], by norm_num⟩

/-- C10 witness: fresh identity Z in the empty-table state. -/
theorem register_spec_witness :
    (((alookup "Z" stateEx.members).isSome → register stateEx "Z" = (RegResult.fail, stateEx)) ∧
      (alookup "Z" stateEx.members = none → alookup "Z" stateEx.userCache = none →
        (register stateEx "Z").1 = RegResult.ok ∧
        alookup "Z" ((register stateEx "Z").2).members = some ⟨0, 0⟩ ∧
        (get_user_weight ((register stateEx "Z").2) "Z").1 = 0) ∧
      (alookup "Z" stateEx.members = none → alookup "Z" stateEx.userCache = none →
        (get_user_weight stateEx "Z").1 = 1 ∧ (0 : Int) < 1)) ∧
    alookup "Z" stateEx.members = none ∧ alookup "Z" stateEx.userCache = none :=
  ⟨register_spec stateEx "Z", rfl, rfl⟩

/-! Claim C5: shape of the top-n query. The code issues ZREVRANGE 0 (n-1);
for n ≤ 0 the stop index n - 1 is negative and Redis counts it from the end
of the sorted set, so n = 0 returns ALL entries rather than none. -/

/-- Sorting does not change the length. -/
theorem sortDesc_length (l : List (String × Rat)) : (sortDesc l).length = l.length :=
  (List.perm_insertionSort _ l).length_eq

/-- Length of the top-n query for positive n: min of n and the entry count. -/
theorem topRanked_length_pos (l : List (String × Rat)) (n : Int) (h : 1 ≤ n) :
    (topRanked l n).length = min n.toNat l.length := by
  have hs : (sortDesc l).length = l.length := sortDesc_length l
  simp only [topRanked, zrevrange]
  rw [if_neg (by omega : ¬ ((0 : Int) < 0)), if_neg (by omega : ¬ (n - 1 < 0))]
  by_cases hb : min (n - 1) (((sortDesc l).length : Int) - 1) < 0
  · rw [if_pos hb]
    simp only [List.length_nil]
    omega
  · rw [if_neg hb]
    simp only [List.length_take, List.length_drop, Int.toNat_zero]
    omega

/-- Length of the top-n query for n ≤ 0: the negative stop index counts from
the end, so the first (entry count + n) entries come back (clamped at 0). -/
theorem topRanked_length_nonpos (l : List (String × Rat)) (n : Int) (h : n ≤ 0) :
    (topRanked l n).length = ((l.length : Int) + n).toNat := by
  have hs : (sortDesc l).length = l.length := sortDesc_length l
  simp only [topRanked, zrevrange]
  rw [if_neg (by omega : ¬ ((0 : Int) < 0)), if_pos (by omega : n - 1 < 0)]
  by_cases hb : n - 1 + ((sortDesc l).length : Int) < 0
  · rw [if_pos hb]
    simp only [List.length_nil]
    omega
  · rw [if_neg hb]
    simp only [List.length_take, List.length_drop, Int.toNat_zero]
    omega

/-- The top-n query never repeats a bidder when the ranking keys are unique. -/
theorem topRanked_nodup (l : List (String × Rat)) (n : Int)
    (h : (l.map Prod.fst).Nodup) : ((topRanked l n).map Prod.fst).Nodup := by
  have hperm : List.Perm (sortDesc l) l := List.perm_insertionSort _ l
  have hsorted : ((sortDesc l).map Prod.fst).Nodup := ((hperm.map Prod.fst).nodup_iff).2 h
  have hsub : List.Sublist (topRanked l n) (sortDesc l) := by
    simp only [topRanked, zrevrange]
    split_ifs <;>
      first
        | exact List.nil_sublist _
        | exact (List.take_sublist _ _).trans (List.drop_sublist _ _)
  exact (hsub.map Prod.fst).nodup hsorted

/-- C5 counterexample: a one-entry ranking queried with n = 0 (the code path
for a product with total_quantity 0: ZREVRANGE 0 -1) returns the whole
ranking, not the empty list the claim requires for n ≤ 0. -/
theorem topRanked_zero_counterexample :
    topRanked [("A", (5 : Rat))] 0 = [("A", 5)] ∧ (0 : Int) ≤ 0 := by
  constructor
  · decide
  · decide

/-- C5 (amended): the top-n query returns no duplicate bidders; an empty
ranking yields an empty list; for n ≥ 1 its length is min(n, entry count),
so n beyond the entry count returns all entries (in full sorted order); but
for n ≤ 0 the stop index n - 1 is interpreted from the end of the sorted
set, returning the first (entry count + n) entries — in particular n = 0
returns all entries, not an empty list. -/
theorem topRanked_spec :
    (∀ (l : List (String × Rat)) (n : Int), 1 ≤ n →
        (topRanked l n).length = min n.toNat l.length) ∧
    (∀ (l : List (String × Rat)) (n : Int), n ≤ 0 →
        (topRanked l n).length = ((l.length : Int) + n).toNat) ∧
    (∀ (l : List (String × Rat)) (n : Int), (l.map Prod.fst).Nodup →
        ((topRanked l n).map Prod.fst).Nodup) ∧
    (∀ n : Int, topRanked [] n = []) ∧
    (∀ (l : List (String × Rat)) (n : Int), 1 ≤ n → (l.length : Int) ≤ n →
        (topRanked l n).length = l.length) := by
  refine ⟨topRanked_length_pos, topRanked_length_nonpos, topRanked_nodup, ?_, ?_⟩
  · intro n
    simp only [topRanked, zrevrange, sortDesc, List.insertionSort]
    split_ifs <;> simp
  · intro l n h1 h2
    rw [topRanked_length_pos l n h1]
    omega

/-- C5 witness: concrete two-entry ranking with n = 1 and n = -1. -/
theorem topRanked_spec_witness :
    (topRanked [("A", (5 : Rat)), ("B", 3)] 1).length = min (Int.toNat 1) 2 ∧
    (topRanked [("A", (5 : Rat)), ("B", 3)] (-1)).length = ((2 : Int) + (-1)).toNat ∧
    ((topRanked [("A", (5 : Rat)), ("B", 3)] 1).map Prod.fst).Nodup ∧
    (topRanked [] (3 : Int) = []) ∧
    (topRanked [("A", (5 : Rat)), ("B", 3)] 7).length = 2 := by
  refine ⟨topRanked_spec.1 _ 1 (by norm_num),
    topRanked_spec.2.1 _ (-1) (by norm_num),
    topRanked_spec.2.2.1 _ 1 (by decide),
    topRanked_spec.2.2.2.1 3,
    topRanked_spec.2.2.2.2 _ 7 (by norm_num) (by norm_num)⟩

/-! Claim C9: no bid is accepted once the observed settled flag is true. The
rejection itself writes nothing, but the snapshot read that observes the flag
may populate the empty metadata cache (read-through), so the full system
state is not always literally unchanged. -/

/-- The snapshot read touches nothing but the metadata cache. -/
theorem get_current_product_fields (s : SysState) (now : Int) :
    ((get_current_product s now).2).members = s.members ∧
    ((get_current_product s now).2).products = s.products ∧
    ((get_current_product s now).2).winners = s.winners ∧
    ((get_current_product s now).2).rankings = s.rankings ∧
    ((get_current_product s now).2).details = s.details ∧
    ((get_current_product s now).2).userCache = s.userCache := by
  rcases hc : s.cache with _ | c
  · rcases hl : latestProduct s.products with _ | row <;>
      simp [get_current_product, hc, hl]
  · simp [get_current_product, hc]

/-- C9 counterexample: a bid against a settled product observed through a
cache miss is rejected, but the system state is NOT left entirely unchanged —
the metadata read populates the previously empty cache. -/
theorem bid_settled_fills_cache :
    (bid stateSettledMiss 0 "U" 5).1 = BidResult.alreadySettled ∧
    (bid stateSettledMiss 0 "U" 5).2 ≠ stateSettledMiss := by
  constructor
  · decide
  · decide

/-- C9 (amended): whenever the product snapshot read by the bid endpoint has
settled = true, the bid is rejected with the already-settled failure and the
Ranking Store, details hash, members, winners, products and user-weight
cache are all left unchanged; the resulting state is exactly the state after
the snapshot read, whose only possible write is the read-through population
of the metadata cache. -/
theorem bid_rejected_when_settled (s : SysState) (now : Int) (u : String) (price : Int)
    (p : Snapshot) (hp : (get_current_product s now).1 = some p)
    (hs : p.settled = true) :
    (bid s now u price).1 = BidResult.alreadySettled ∧
    (bid s now u price).2 = (get_current_product s now).2 ∧
    ((bid s now u price).2).rankings = s.rankings ∧
    ((bid s now u price).2).details = s.details ∧
    ((bid s now u price).2).members = s.members ∧
    ((bid s now u price).2).winners = s.winners ∧
    ((bid s now u price).2).products = s.products ∧
    ((bid s now u price).2).userCache = s.userCache := by
  have hf := get_current_product_fields s now
  rcases hg : get_current_product s now with ⟨po, s1⟩
  rw [hg] at hp
  simp only at hp
  subst hp
  rw [hg] at hf
  have hbid : bid s now u price = (BidResult.alreadySettled, s1) := by
    unfold bid
    rw [hg]
    simp [hs]
  rw [hbid]
  simp only at hf ⊢
  exact ⟨trivial, trivial, hf.2.2.2.1, hf.2.2.2.2.1, hf.1, hf.2.2.1, hf.2.1, hf.2.2.2.2.2⟩

/-- C9 witness: concrete rejected bid, hypotheses discharged by rfl. -/
theorem bid_rejected_when_settled_witness :
    (bid stateSettledHit 0 "U" 5).1 = BidResult.alreadySettled ∧
    (bid stateSettledHit 0 "U" 5).2 = (get_current_product stateSettledHit 0).2 ∧
    ((bid stateSettledHit 0 "U" 5).2).rankings = stateSettledHit.rankings ∧
    ((bid stateSettledHit 0 "U" 5).2).details = stateSettledHit.details ∧
    ((bid stateSettledHit 0 "U" 5).2).members = stateSettledHit.members ∧
    ((bid stateSettledHit 0 "U" 5).2).winners = stateSettledHit.winners ∧
    ((bid stateSettledHit 0 "U" 5).2).products = stateSettledHit.products ∧
    ((bid stateSettledHit 0 "U" 5).2).userCache = stateSettledHit.userCache :=
  bid_rejected_when_settled stateSettledHit 0 "U" 5 snapSettled rfl rfl

/-! Support lemmas for UPDATE ... WHERE product_id = pid statements, which
the model renders as a conditional map over the products list. -/

/-- A conditional in-place update keeps the list of product ids. -/
theorem map_update_ids (l : List Product) (pid : Nat) (f : Product → Product)
    (hf : ∀ p, (f p).product_id = p.product_id) :
    ((l.map fun p => if p.product_id = pid then f p else p).map Product.product_id) =
      l.map Product.product_id := by
  induction l with
  | nil => rfl
  | cons hd tl ih =>
    by_cases h : hd.product_id = pid <;> simp [h, hf, ih]

/-- Looking up the updated id after a conditional in-place update returns the
updated row. -/
theorem findProduct_map_update (l : List Product) (pid : Nat) (f : Product → Product)
    (hf : ∀ p, (f p).product_id = p.product_id) :
    findProduct pid (l.map fun p => if p.product_id = pid then f p else p) =
      (findProduct pid l).map f := by
  induction l with
  | nil => rfl
  | cons hd tl ih =>
    by_cases h : hd.product_id = pid
    · simp [findProduct, h, hf]
    · simp [findProduct, h, ih]

/-- An id-preserving map commutes with the highest-id SELECT. -/
theorem latestProduct_map (l : List Product) (f : Product → Product)
    (hf : ∀ p, (f p).product_id = p.product_id) :
    latestProduct (l.map f) = (latestProduct l).map f := by
  induction l with
  | nil => rfl
  | cons hd tl ih =>
    simp only [List.map_cons, latestProduct, ih]
    rcases h : latestProduct tl with _ | q
    · simp
    · simp only [Option.map_some]
      by_cases hle : q.product_id ≤ hd.product_id <;> simp [hf, hle]

/-! Claim C7: the specification says admin auction creation always appends a
new record with a higher identity and never mutates an old one. The code
does the opposite: set_product upserts into the fixed product_id 1,
overwriting floor, capacity and timing of the existing row and resetting its
settled flag to false. -/

/-- C7 counterexample: re-listing over an existing auction does not append a
record with a higher identity — the table still holds exactly one row with
id 1, whose floor price, capacity and timing have been overwritten and whose
settled flag has been reset to false. -/
theorem set_product_overwrites :
    (set_product stateProdOld cfgNew 7).products =
      [{ product_id := 1, name := "new", base_price := 20, total_quantity := 5
         duration_minutes := 2, alpha := 2, beta := 3, gamma := 4
         start_time := 7, period := 120000, settled := false }] ∧
    (set_product stateProdOld cfgNew 7).products.length = stateProdOld.products.length ∧
    findProduct 1 (set_product stateProdOld cfgNew 7).products ≠ some prodOld := by
  refine ⟨by decide, by decide, by decide⟩

/-- C7 (amended): set_product is an upsert into the fixed id 1. When a row
with id 1 exists, the set of product ids is unchanged (nothing is appended,
no higher identity appears) and the id-1 row is overwritten in place: name,
floor price, capacity, duration and timing all take the new values and
settled is reset to false, with only the score coefficients preserved. Only
when no id-1 row exists is a fresh row (with the coefficient column defaults
1, 0, 0) appended. -/
theorem set_product_upsert (s : SysState) (cfg : ProductConfig) (now : Int) :
    ((findProduct 1 s.products).isSome →
      (set_product s cfg now).products.map Product.product_id =
        s.products.map Product.product_id ∧
      ∀ p, findProduct 1 s.products = some p →
        findProduct 1 (set_product s cfg now).products =
          some { p with
                 name := cfg.name
                 base_price := cfg.base_price
                 total_quantity := cfg.total_quantity
                 duration_minutes := cfg.duration_minutes
                 start_time := now
                 period := cfg.duration_minutes * 60 * 1000
                 settled := false }) ∧
    (findProduct 1 s.products = none →
      (set_product s cfg now).products = s.products ++
        [{ product_id := 1, name := cfg.name, base_price := cfg.base_price,
           total_quantity := cfg.total_quantity,
           duration_minutes := cfg.duration_minutes, alpha := 1, beta := 0, gamma := 0,
           start_time := now, period := cfg.duration_minutes * 60 * 1000,
           settled := false }]) := by
  rcases hf1 : findProduct 1 s.products with _ | p0
  · refine ⟨?_, ?_⟩
    · intro h
      simp at h
    · intro _
      simp [set_product, hf1]
  · refine ⟨?_, ?_⟩
    · intro _
      constructor
      · simp only [set_product, hf1]
        exact map_update_ids s.products 1 _ (fun p => rfl)
      · intro p hp
        simp only [Option.some.injEq] at hp
        subst hp
        simp only [set_product, hf1]
        rw [findProduct_map_update s.products 1 (fun p => { p with name := cfg.name, base_price := cfg.base_price, total_quantity := cfg.total_quantity, duration_minutes := cfg.duration_minutes, start_time := now, period := cfg.duration_minutes * 60 * 1000, settled := false }) (fun p => rfl), hf1]
        rfl
    · intro h
      simp at h

/-- C7 witness: the concrete overwrite scenario instantiating the amended
theorem, hypotheses discharged by rfl. -/
theorem set_product_upsert_witness :
    (set_product stateProdOld cfgNew 7).products.map Product.product_id =
      stateProdOld.products.map Product.product_id ∧
    findProduct 1 (set_product stateProdOld cfgNew 7).products =
      some { prodOld with
             name := "new"
             base_price := 20
             total_quantity := 5
             duration_minutes := 2
             start_time := 7
             period := 120000
             settled := false } :=
  ⟨((set_product_upsert stateProdOld cfgNew 7).1 (by decide)).1,
   ((set_product_upsert stateProdOld cfgNew 7).1 (by decide)).2 prodOld rfl⟩

/-! Frame lemmas: the winner loop of settlement touches only members,
userCache and winners. -/

/-- One winner step leaves cache, products, rankings and details alone. -/
theorem settleWinner_frame (pid : Nat) (now : Int) (s : SysState) (e : String × Rat) :
    (settleWinner pid now s e).cache = s.cache ∧
    (settleWinner pid now s e).products = s.products ∧
    (settleWinner pid now s e).rankings = s.rankings ∧
    (settleWinner pid now s e).details = s.details := by
  unfold settleWinner
  rcases h : alookup e.1 s.members with _ | m <;> simp [h]

/-- The whole winner loop leaves cache, products, rankings and details alone. -/
theorem settleWinners_frame (pid : Nat) (now : Int) :
    ∀ (l : List (String × Rat)) (s : SysState),
      (settleWinners pid now s l).cache = s.cache ∧
      (settleWinners pid now s l).products = s.products ∧
      (settleWinners pid now s l).rankings = s.rankings ∧
      (settleWinners pid now s l).details = s.details := by
  intro l
  induction l with
  | nil => intro s; exact ⟨rfl, rfl, rfl, rfl⟩
  | cons e rest ih =>
    intro s
    have h1 := settleWinner_frame pid now s e
    have h2 := ih (settleWinner pid now s e)
    simp only [settleWinners]
    exact ⟨h2.1.trans h1.1, h2.2.1.trans h1.2.1, h2.2.2.1.trans h1.2.2.1,
      h2.2.2.2.trans h1.2.2.2⟩

/-! Claim C6: the specification says admin auction creation and coefficient
changes invalidate the Auction Metadata Cache. Neither admin endpoint
touches Redis at all, so a coefficient change stays invisible to readers
until the cached snapshot expires. Settlement, by contrast, does rewrite the
cached settled flag. -/

/-- C6 counterexample: set_score succeeds and writes alpha = 2 to SQL, yet
the very next metadata read still returns the cached alpha = 1 — the cache
is not invalidated, so the next get does NOT return the new coefficients. -/
theorem set_score_stale_cache :
    (set_score stateCoef 2 7 9).1 = SetScoreResult.ok ∧
    (findProduct 1 ((set_score stateCoef 2 7 9).2).products).map Product.alpha = some 2 ∧
    ((get_current_product ((set_score stateCoef 2 7 9).2) 0).1).map Snapshot.alpha =
      some 1 := by
  refine ⟨by decide, by decide, by decide⟩

/-- C6 (amended): the admin endpoints never invalidate the metadata cache —
both set_score and set_product leave the Redis snapshot untouched, so a
coefficient change or a relisting is invisible to readers until the cache
expires. Settlement of an unsettled product does make settled = true visible
to the next metadata read: it rewrites the cached snapshot in place when the
cache holds this product id, and when the cache is empty the next read goes
through to the store, which already carries settled = true. -/
theorem cache_invalidation_spec :
    (∀ (s : SysState) (A B C : Rat), ((set_score s A B C).2).cache = s.cache) ∧
    (∀ (s : SysState) (cfg : ProductConfig) (now : Int),
      (set_product s cfg now).cache = s.cache) ∧
    (∀ (s : SysState) (pid : Nat) (q now now2 : Int) (c : Snapshot) (prod : Product),
      s.cache = some c → c.product_id = pid →
      findProduct pid s.products = some prod → prod.settled = false →
      ((get_current_product (settle_product_logic s pid q now) now2).1).map
        Snapshot.settled = some true) ∧
    (∀ (s : SysState) (pid : Nat) (q now now2 : Int) (prod : Product),
      s.cache = none → findProduct pid s.products = some prod →
      latestProduct s.products = some prod → prod.product_id = pid →
      prod.settled = false →
      ((get_current_product (settle_product_logic s pid q now) now2).1).map
        Snapshot.settled = some true) := by
  refine ⟨?_, ?_, ?_, ?_⟩
  · intro s A B C
    cases h : findProduct 1 s.products <;> simp [set_score, h]
  · intro s cfg now
    cases h : findProduct 1 s.products <;> simp [set_product, h]
  · intro s pid q now now2 c prod hc hcp hfp hset
    have hframe := settleWinners_frame pid now (topRanked (rankingOf s pid) q) s
    simp [settle_product_logic, hfp, hset, hframe.1, hc, hcp, get_current_product]
  · intro s pid q now now2 prod hc hfp hlp hpid hset
    have hframe := settleWinners_frame pid now (topRanked (rankingOf s pid) q) s
    have hid : ∀ p : Product,
        ((if p.product_id = pid then { p with settled := true } else p) :
          Product).product_id = p.product_id := by
      intro p
      by_cases h : p.product_id = pid <;> simp [h]
    have hlat : latestProduct (setSettled pid s.products) =
        some { prod with settled := true } := by
      unfold setSettled
      rw [latestProduct_map _ _ hid, hlp]
      simp [hpid]
    simp [settle_product_logic, hfp, hset, hframe.1, hframe.2.1, hc,
      get_current_product, hlat, rowSnapshot]

/-- C6 witness: concrete instances of all four conjuncts, hypotheses
discharged by rfl. -/
theorem cache_invalidation_spec_witness :
    ((set_score stateCoef 2 7 9).2).cache = stateCoef.cache ∧
    (set_product stateProdOld cfgNew 7).cache = stateProdOld.cache ∧
    ((get_current_product (settle_product_logic stateCoef 1 2 0) 0).1).map
      Snapshot.settled = some true ∧
    ((get_current_product (settle_product_logic stateMissOpen 1 2 0) 0).1).map
      Snapshot.settled = some true :=
  ⟨cache_invalidation_spec.1 stateCoef 2 7 9,
   cache_invalidation_spec.2.1 stateProdOld cfgNew 7,
   cache_invalidation_spec.2.2.1 stateCoef 1 2 0 0 (rowSnapshot prodABC) prodABC
     rfl rfl rfl rfl,
   cache_invalidation_spec.2.2.2 stateMissOpen 1 2 0 0 prodABC rfl rfl rfl rfl rfl⟩

/-! Claim C8: on a miss, get_current_product caches the defaulted
cache_payload but returns the raw row, so a miss followed by a hit disagrees
exactly when some falsy column was replaced by a default. -/

/-- C8 counterexample: for a stored configuration with alpha = 0, the miss
returns alpha = 0 (the raw row) while the hit that follows returns alpha = 3
(the defaulted cached payload) — two successive gets with no intervening
store writes return different snapshots. -/
theorem get_miss_hit_disagree :
    ((get_current_product stateZeroAlpha 0).1).map Snapshot.alpha = some 0 ∧
    ((get_current_product ((get_current_product stateZeroAlpha 0).2) 0).1).map
      Snapshot.alpha = some 3 ∧
    (get_current_product ((get_current_product stateZeroAlpha 0).2) 0).1 ≠
      (get_current_product stateZeroAlpha 0).1 := by
  refine ⟨by decide, by decide, by decide⟩

/-- C8 (amended): the miss path queries the highest-id row, returns the raw
row, and caches the defaulted payload; the cached snapshot equals the
returned snapshot — and hence a miss followed by a hit returns equal
snapshots — only when start_time, alpha, beta and gamma are all nonzero
(and non-NULL), since the payload replaces falsy values by the defaults
now/3/5/3 while the returned raw row keeps them. -/
theorem get_read_through_agree (s : SysState) (now now2 : Int) (row : Product)
    (hc : s.cache = none) (hl : latestProduct s.products = some row)
    (h1 : row.start_time ≠ 0) (h2 : row.alpha ≠ 0) (h3 : row.beta ≠ 0)
    (h4 : row.gamma ≠ 0) :
    (get_current_product s now).1 = some (rowSnapshot row) ∧
    ((get_current_product s now).2).cache = some (rowSnapshot row) ∧
    (get_current_product ((get_current_product s now).2) now2).1 =
      (get_current_product s now).1 := by
  have hpay : cachePayload now row = rowSnapshot row := by
    simp [cachePayload, rowSnapshot, orDefault, orDefaultInt, h1, h2, h3, h4]
  simp [get_current_product, hc, hl, hpay]

/-- C8 witness: the all-nonzero row prodOld behind an empty cache. -/
theorem get_read_through_agree_witness :
    (get_current_product stateProdOld 0).1 = some (rowSnapshot prodOld) ∧
    ((get_current_product stateProdOld 0).2).cache = some (rowSnapshot prodOld) ∧
    (get_current_product ((get_current_product stateProdOld 0).2) 3).1 =
      (get_current_product stateProdOld 0).1 :=
  get_read_through_agree stateProdOld 0 3 prodOld rfl rfl (by decide) (by decide)
    (by decide) (by decide)

/-! Accumulation lemmas for the settlement winner loop. -/

/-- One winner step appends exactly one winners row. -/
theorem settleWinner_winners (pid : Nat) (now : Int) (s : SysState) (e : String × Rat) :
    (settleWinner pid now s e).winners =
      s.winners ++ [mkAward pid now (detailsOf s pid) e] := by
  unfold settleWinner mkAward
  rcases h : alookup e.1 s.members with _ | m <;> simp [h]

/-- The winner loop appends exactly one winners row per entry of the frozen
top list, reading all prices from the pre-loop details hash. -/
theorem settleWinners_winners (pid : Nat) (now : Int) :
    ∀ (l : List (String × Rat)) (s : SysState),
      (settleWinners pid now s l).winners =
        s.winners ++ l.map (mkAward pid now (detailsOf s pid)) := by
  intro l
  induction l with
  | nil => intro s; simp [settleWinners]
  | cons e rest ih =>
    intro s
    simp only [settleWinners]
    rw [ih]
    have hd : detailsOf (settleWinner pid now s e) pid = detailsOf s pid := by
      have hfr := (settleWinner_frame pid now s e).2.2.2
      simp [detailsOf, hfr]
    rw [hd, settleWinner_winners]
    simp

/-- One winner step bumps the members row of that winner (when present) and
leaves every other row alone. -/
theorem settleWinner_memOf (pid : Nat) (now : Int) (s : SysState) (e : String × Rat)
    (u : String) :
    memOf (settleWinner pid now s e) u =
      if e.1 = u then (memOf s u).map bumpMem else memOf s u := by
  unfold settleWinner memOf bumpMem
  rcases h : alookup e.1 s.members with _ | m
  · by_cases he : e.1 = u
    · subst he
      simp [h]
    · simp [h, he]
  · by_cases he : e.1 = u
    · subst he
      simp [h, alookup_aset_self]
    · simp [h, he, alookup_aset_ne _ _ (fun hh => he hh.symm)]

/-- A user absent from the frozen top list keeps their members row. -/
theorem settleWinners_memOf_zero (pid : Nat) (now : Int) :
    ∀ (l : List (String × Rat)) (s : SysState) (u : String),
      (l.map Prod.fst).count u = 0 →
      memOf (settleWinners pid now s l) u = memOf s u := by
  intro l
  induction l with
  | nil => intro s u _; rfl
  | cons e rest ih =>
    intro s u hc
    simp only [List.map_cons, List.count_cons] at hc
    have he : ¬ (e.1 = u) := by
      intro hh
      simp [hh] at hc
    simp only [settleWinners]
    rw [ih _ u (by omega), settleWinner_memOf, if_neg he]

/-- A user appearing exactly once in the frozen top list has their members
row bumped exactly once. -/
theorem settleWinners_memOf_one (pid : Nat) (now : Int) :
    ∀ (l : List (String × Rat)) (s : SysState) (u : String),
      (l.map Prod.fst).count u = 1 →
      memOf (settleWinners pid now s l) u = (memOf s u).map bumpMem := by
  intro l
  induction l with
  | nil => intro s u hc; simp at hc
  | cons e rest ih =>
    intro s u hc
    simp only [List.map_cons, List.count_cons] at hc
    by_cases he : e.1 = u
    · have hrest : (rest.map Prod.fst).count u = 0 := by
        simp [he] at hc
        omega
      simp only [settleWinners]
      rw [settleWinners_memOf_zero pid now rest _ u hrest, settleWinner_memOf, if_pos he]
    · have hrest : (rest.map Prod.fst).count u = 1 := by
        simp [he] at hc
        omega
      simp only [settleWinners]
      rw [ih _ u hrest, settleWinner_memOf, if_neg he]

/-- The winner loop adds to the winners table exactly one row per occurrence
of a user in the frozen top list. -/
theorem awardCount_settleWinners (pid : Nat) (now : Int) (l : List (String × Rat))
    (s : SysState) (u : String) :
    awardCount (settleWinners pid now s l) pid u =
      awardCount s pid u + (l.map Prod.fst).count u := by
  unfold awardCount
  rw [settleWinners_winners pid now l s, List.filter_append, List.length_append]
  congr 1
  induction l with
  | nil => simp
  | cons e rest ih =>
    simp only [List.map_cons, List.filter_cons, List.count_cons]
    by_cases he : e.1 = u
    · simp [mkAward, he, ih]
    · simp [mkAward, he, ih]

/-- After settling an unsettled product, its products row carries
settled = true and nothing else in the table changed. -/
theorem settle_products_settles (s : SysState) (pid : Nat) (q now : Int)
    (prod : Product) (hf : findProduct pid s.products = some prod)
    (hs : prod.settled = false) :
    (settle_product_logic s pid q now).products = setSettled pid s.products := by
  have hframe := settleWinners_frame pid now (topRanked (rankingOf s pid) q) s
  unfold settle_product_logic
  rw [hf]
  simp only [hs, Bool.false_eq_true, if_false]
  rcases hc2 : (settleWinners pid now s (topRanked (rankingOf s pid) q)).cache with _ | c
  · simp [hc2, hframe.2.1]
  · by_cases hcp : c.product_id = pid <;> simp [hc2, hcp, hframe.2.1]

/-- The post-loop steps of settlement (flag update, cache rewrite) do not
touch the members and winners tables. -/
theorem settle_members_winners (s : SysState) (pid : Nat) (q now : Int)
    (prod : Product) (hf : findProduct pid s.products = some prod)
    (hs : prod.settled = false) :
    (settle_product_logic s pid q now).members =
      (settleWinners pid now s (topRanked (rankingOf s pid) q)).members ∧
    (settle_product_logic s pid q now).winners =
      (settleWinners pid now s (topRanked (rankingOf s pid) q)).winners := by
  unfold settle_product_logic
  rw [hf]
  simp only [hs, Bool.false_eq_true, if_false]
  rcases hc2 : (settleWinners pid now s (topRanked (rankingOf s pid) q)).cache with _ | c
  · simp [hc2]
  · by_cases hcp : c.product_id = pid <;> simp [hc2, hcp]

/-- Settling marks the row settled: looking it up afterwards finds the same
row with the flag set. -/
theorem settle_findProduct (s : SysState) (pid : Nat) (q now : Int)
    (prod : Product) (hf : findProduct pid s.products = some prod)
    (hs : prod.settled = false) :
    findProduct pid (settle_product_logic s pid q now).products =
      some { prod with settled := true } := by
  rw [settle_products_settles s pid q now prod hf hs]
  unfold setSettled
  rw [findProduct_map_update s.products pid (fun p => { p with settled := true })
    (fun p => rfl), hf]
  rfl

/-! Claim C2: settlement is a guarded one-way transition and is idempotent. -/

/-- C2 (amended): settlement is a no-op when the auction row is absent or
already settled (no award, weight or flag write); running settlement twice
(the second after the first completed) equals running it once; and across
the two invocations every winning bidder gains exactly one winners row,
while the weight update is membership-conditional: a registered winner gains
exactly one wins increment with weight set to the new wins, and an
unregistered winner keeps no members row at all (zero increments), since the
winners insert sits outside the membership check. -/
theorem settle_exactly_once (s : SysState) (pid : Nat) (q : Int) (now now2 : Int)
    (hnd : ((rankingOf s pid).map Prod.fst).Nodup) :
    (findProduct pid s.products = none → settle_product_logic s pid q now = s) ∧
    (∀ prod, findProduct pid s.products = some prod → prod.settled = true →
      settle_product_logic s pid q now = s) ∧
    (settle_product_logic (settle_product_logic s pid q now) pid q now2 =
      settle_product_logic s pid q now) ∧
    (∀ prod, findProduct pid s.products = some prod → prod.settled = false →
      ∀ u, u ∈ (topRanked (rankingOf s pid) q).map Prod.fst →
        awardCount (settle_product_logic (settle_product_logic s pid q now) pid q now2)
            pid u = awardCount s pid u + 1 ∧
        memOf (settle_product_logic (settle_product_logic s pid q now) pid q now2) u =
          (memOf s u).map bumpMem) := by
  have hnone : ∀ t : Int, findProduct pid s.products = none →
      settle_product_logic s pid q t = s := by
    intro t h
    unfold settle_product_logic
    rw [h]
  have hsett : ∀ (prod : Product) (t : Int), findProduct pid s.products = some prod →
      prod.settled = true → settle_product_logic s pid q t = s := by
    intro prod t h hs
    unfold settle_product_logic
    rw [h]
    simp [hs]
  have hidem : settle_product_logic (settle_product_logic s pid q now) pid q now2 =
      settle_product_logic s pid q now := by
    rcases hf : findProduct pid s.products with _ | prod
    · rw [hnone now hf]
      exact hnone now2 hf
    · by_cases hs : prod.settled = true
      · rw [hsett prod now hf hs]
        exact hsett prod now2 hf hs
      · have hs2 : prod.settled = false := by
          revert hs
          cases prod.settled <;> simp
        have hfp2 := settle_findProduct s pid q now prod hf hs2
        set s1 := settle_product_logic s pid q now with hs1
        unfold settle_product_logic
        rw [hfp2]
        simp
  refine ⟨hnone now, fun prod h hs => hsett prod now h hs, hidem, ?_⟩
  intro prod hf hs u hu
  rw [hidem]
  have hcount : ((topRanked (rankingOf s pid) q).map Prod.fst).count u = 1 :=
    List.count_eq_one_of_mem (topRanked_nodup _ q hnd) hu
  have hmw := settle_members_winners s pid q now prod hf hs
  constructor
  · simp only [awardCount]
    rw [hmw.2]
    have h2 := awardCount_settleWinners pid now (topRanked (rankingOf s pid) q) s u
    simp only [awardCount] at h2
    rw [h2, hcount]
  · simp only [memOf]
    rw [hmw.1]
    have h3 := settleWinners_memOf_one pid now (topRanked (rankingOf s pid) q) s u hcount
    simp only [memOf] at h3
    rw [h3]

/-- C2 witness: double settlement on a concrete two-bidder state equals a
single settlement, with bidder B receiving exactly one award and one bump. -/
theorem settle_exactly_once_witness :
    (settle_product_logic (settle_product_logic stateSettleW 1 2 0) 1 2 5 =
      settle_product_logic stateSettleW 1 2 0) ∧
    awardCount (settle_product_logic (settle_product_logic stateSettleW 1 2 0) 1 2 5)
        1 "B" = awardCount stateSettleW 1 "B" + 1 ∧
    memOf (settle_product_logic (settle_product_logic stateSettleW 1 2 0) 1 2 5) "B" =
      (memOf stateSettleW "B").map bumpMem := by
  have h := settle_exactly_once stateSettleW 1 2 0 5 (by decide)
  exact ⟨h.2.2.1, (h.2.2.2 prodABC rfl rfl "B" (by decide)).1,
    (h.2.2.2 prodABC rfl rfl "B" (by decide)).2⟩

/-! Claim C4: the claim says settlement increments the win count and sets
the weight for EVERY winner it writes an Award row for. In the code the
winners-table insert sits outside the membership check, so a winner with no
members row (possible, since bidding does not require registration — the
weight lookup falls back to 1) receives an Award while no weight or win
count exists or is written for them. -/

/-- C4 counterexample: settlement writes an Award row for the unregistered
winner X, yet the members table stays empty — no win count is incremented
and no weight is set equal to anything, so the claimed per-winner weight
update does not happen for X. -/
theorem settle_unregistered_winner :
    (settle_product_logic stateUnreg 1 2 0).winners.map Award.user_id = ["X"] ∧
    (settle_product_logic stateUnreg 1 2 0).members = [] := by
  refine ⟨by decide, by decide⟩

/-- C4 (amended): at settlement of an unsettled auction, every winning
bidder gains exactly one Award row; a winner WITH a members row has wins
incremented by one and weight set equal to the new wins, while a winner
WITHOUT a members row gains the Award but no members row, win count or
weight (none is created); and a newly registered bidder starts with weight 0
and wins 0. So weight mirrors cumulative awards only for bidders registered
before their wins. -/
theorem settle_weight_spec (s : SysState) (pid : Nat) (q now : Int) (prod : Product)
    (hf : findProduct pid s.products = some prod) (hs : prod.settled = false)
    (hnd : ((rankingOf s pid).map Prod.fst).Nodup) :
    (∀ u, u ∈ (topRanked (rankingOf s pid) q).map Prod.fst →
      awardCount (settle_product_logic s pid q now) pid u = awardCount s pid u + 1 ∧
      (memOf s u = none → memOf (settle_product_logic s pid q now) u = none) ∧
      (∀ m, memOf s u = some m →
        memOf (settle_product_logic s pid q now) u = some ⟨m.wins + 1, m.wins + 1⟩)) ∧
    (∀ u, alookup u s.members = none →
      alookup u ((register s u).2).members = some ⟨0, 0⟩) := by
  constructor
  · intro u hu
    have hcount : ((topRanked (rankingOf s pid) q).map Prod.fst).count u = 1 :=
      List.count_eq_one_of_mem (topRanked_nodup _ q hnd) hu
    have hmw := settle_members_winners s pid q now prod hf hs
    have hmem : memOf (settle_product_logic s pid q now) u = (memOf s u).map bumpMem := by
      simp only [memOf]
      rw [hmw.1]
      have h3 := settleWinners_memOf_one pid now (topRanked (rankingOf s pid) q) s u hcount
      simp only [memOf] at h3
      rw [h3]
    refine ⟨?_, ?_, ?_⟩
    · simp only [awardCount]
      rw [hmw.2]
      have h2 := awardCount_settleWinners pid now (topRanked (rankingOf s pid) q) s u
      simp only [awardCount] at h2
      rw [h2, hcount]
    · intro hnone
      rw [hmem, hnone]
      rfl
    · intro m hm
      rw [hmem, hm]
      rfl
  · intro u hm
    have hmem : alookup u (s.members ++ [(u, (⟨0, 0⟩ : Mem))]) = some ⟨0, 0⟩ := by
      rw [alookup_append_left_none _ hm]
      simp [alookup]
    simp [register, hm, hmem]

/-- C4 witness: on the mixed state, R gains one award and is bumped to wins
3 and weight 3, X gains one award and still has no members row, and fresh
registration of Z yields the 0-0 row. -/
theorem settle_weight_spec_witness :
    (awardCount (settle_product_logic stateMixed 1 2 0) 1 "R" =
        awardCount stateMixed 1 "R" + 1 ∧
      memOf (settle_product_logic stateMixed 1 2 0) "R" = some ⟨3, 3⟩) ∧
    (awardCount (settle_product_logic stateMixed 1 2 0) 1 "X" =
        awardCount stateMixed 1 "X" + 1 ∧
      memOf (settle_product_logic stateMixed 1 2 0) "X" = none) ∧
    alookup "Z" ((register stateMixed "Z").2).members = some ⟨0, 0⟩ := by
  have h := settle_weight_spec stateMixed 1 2 0 prodABC rfl rfl (by decide)
  refine ⟨⟨(h.1 "R" (by decide)).1, ?_⟩, ⟨(h.1 "X" (by decide)).1,
    (h.1 "X" (by decide)).2.1 rfl⟩, h.2 "Z" rfl⟩
  exact (h.1 "R" (by decide)).2.2 ⟨2, 2⟩ rfl

/-- C2 counterexample: invoking settlement twice (the second after the first
completed) on a state whose sole winning bidder X never registered produces
exactly one Award row for X but ZERO weight increments — no members row for
X exists before or after either invocation, so the claimed "exactly one
weight increment per winning bidder" fails at X. -/
theorem settle_twice_no_increment :
    awardCount (settle_product_logic (settle_product_logic stateUnreg 1 2 0) 1 2 5)
        1 "X" = 1 ∧
    (settle_product_logic (settle_product_logic stateUnreg 1 2 0) 1 2 5).members = [] ∧
    stateUnreg.members = [] := by
  refine ⟨by decide, by decide, by decide⟩
